import Mathlib

/-!
Verification development for the nonebot-plugin-msgbuf repository.

Shallow embedding of `models.py`, `base.py`, `platforms.py` and
`__init__.py`.  Python runtime behaviour is made explicit:
  * fallible operations return `Except PyErr`;
  * `int(s)` is modelled by `String.toInt?` (failure = ValueError);
  * float payloads (Location latitude/longitude) are carried as `Int`,
    since no claim depends on float arithmetic;
  * byte/stream file payloads are carried as bare tags, since no claim
    inspects their contents.
-/

/-- Python runtime errors that the embedded code can raise. -/
inductive PyErr where
  | typeError
  | valueError
  | attributeError
deriving DecidableEq, Repr

/-- `SupportedFileData = Union[str, Path, bytes, BytesIO]` from models.py. -/
inductive FileData where
  | fstr (s : String)
  | fpath (p : String)
  | fbytes
  | fbytesio
deriving DecidableEq, Repr

/-- Payload of a `Raw` element: either a plain string or a
platform-native segment/message object, of which we record the
`__module__` of its class and its `str(...)` rendering. -/
inductive RawVal where
  | rstr (s : String)
  | rnative (module : String) (text : String)
deriving DecidableEq, Repr

/-- `obj.__module__` for a Raw payload (a `str` lives in `builtins`). -/
def rawModule : RawVal → String
  | .rstr _ => "builtins"
  | .rnative m _ => m

/-- `str(obj)` for a Raw payload. -/
def rawStr : RawVal → String
  | .rstr s => s
  | .rnative _ t => t

/-- The closed tagged union of message elements defined in models.py.
Field layout follows the dataclasses exactly; note that `Mention`
carries only `user_id` (models.py lines 83-88 declare no further
field). -/
inductive Model where
  | Raw (raw : RawVal)
  | Text (text : String)
  | Image (image : FileData) (name : String)
  | Mention (user_id : String)
  | Reply (msg_id : String)
  | Face (face_id : String)
  | Voice (voice : FileData) (name : String)
  | Video (video : FileData) (name : String)
  | File (file : FileData) (name : String)
  | Share (url title content image : String)
  | Location (lat lon : Int) (title content : String)
deriving DecidableEq, Repr

/-- `isinstance(seg, Mutex)`: models.py derives Raw, Voice, Video,
File, Share and Location from the `Mutex` marker class. -/
def isMutexModel : Model → Bool
  | .Raw _ | .Voice _ _ | .Video _ _ | .File _ _
  | .Share _ _ _ _ | .Location _ _ _ _ => true
  | _ => false

/-- `isinstance(seg, Image)`. -/
def isImageModel : Model → Bool
  | .Image _ _ => true
  | _ => false

/-- `isinstance(seg, Reply)` (the only `Single` variant). -/
def isReplyModel : Model → Bool
  | .Reply _ => true
  | _ => false

/-- `isinstance(seg, File)`. -/
def isFileModel : Model → Bool
  | .File _ _ => true
  | _ => false

/-- The `alternative()` plain-text degradation of each variant,
following models.py literally. -/
def Model.alternative : Model → String
  | .Raw r => rawStr r
  | .Text t => t
  | .Image _ _ => "[图片]"
  | .Mention u => "@" ++ u ++ " "
  | .Reply _ => "[回复]"
  | .Face _ => "[表情]"
  | .Voice _ _ => "[语音]"
  | .Video _ _ => "[视频]"
  | .File _ _ => "[文件]"
  | .Share url title _ _ => "[分享] 《" ++ title ++ "》 " ++ url
  | .Location la lo _ _ => "[纬度：" ++ toString la ++ "，经度：" ++ toString lo ++ "]"

/-- Python `s.isdigit()` (empty string is not a digit string). -/
def pyIsDigit (s : String) : Bool :=
  !s.toList.isEmpty && s.toList.all Char.isDigit

/-- `a` is a prefix of `b`, over character lists. -/
def listStarts : List Char → List Char → Bool
  | [], _ => true
  | _ :: _, [] => false
  | c :: cs, d :: ds => (c = d) && listStarts cs ds

/-- Python `s.startswith(pre)`: same function as the library prefix
test, written over the character lists so that it evaluates by
reduction. -/
def pyStartsWith (s pre : String) : Bool :=
  listStarts pre.toList s.toList

/-- Decimal value of a digit string; `none` when empty or not all
digits. -/
def digitsVal (l : List Char) : Option Nat :=
  if l.isEmpty then none
  else if l.all Char.isDigit then
    some (l.foldl (fun n c => n * 10 + (c.toNat - '0'.toNat)) 0)
  else none

/-- Python `int(s)` on a string: optional sign followed by decimal
digits; `none` models the ValueError raised otherwise. -/
def pyInt (s : String) : Option Int :=
  match s.toList with
  | '-' :: rest => (digitsVal rest).map fun n => -(n : Int)
  | '+' :: rest => (digitsVal rest).map fun n => (n : Int)
  | l => (digitsVal l).map fun n => (n : Int)

/-- `os.path.basename` / `Path.name`: the part after the last slash. -/
def pyBasename (s : String) : String :=
  ((s.splitOn "/").getLast?).getD ""

/-- `s.find('?')`: index of the first question mark, `-1` if absent. -/
def pyFindQmark (s : String) : Int :=
  match s.toList.findIdx? (· = '?') with
  | some i => (i : Int)
  | none => -1

/-- `end[:pa] if pa > 0 else end`, the query-string strip applied to
names derived from http references. -/
def stripQuery (e : String) : String :=
  let pa := pyFindQmark e
  if pa > 0 then e.take pa.toNat else e

/-- `Image.__post_init__`: derive a display name when none is given
(bytes-like payloads get the generic name "image"; this construction
never raises). -/
def mkImage (image : FileData) (name : String) : Model :=
  .Image image <|
    if name ≠ "" then name
    else match image with
    | .fbytes | .fbytesio => "image"
    | .fpath p => pyBasename p
    | .fstr s =>
      if pyStartsWith s "base" then "image"
      else
        let e := pyBasename s
        if pyStartsWith s "http" then stripQuery e else e

/-- `Voice.__post_init__`: raises ValueError when the payload is a
base-prefixed string without an explicit name. -/
def mkVoice (voice : FileData) (name : String) : Except PyErr Model :=
  if name ≠ "" then .ok (.Voice voice name)
  else match voice with
  | .fbytes | .fbytesio => .ok (.Voice voice "voice")
  | .fpath p => .ok (.Voice voice (pyBasename p))
  | .fstr s =>
    if pyStartsWith s "base" then .error .valueError
    else
      let e := pyBasename s
      .ok (.Voice voice (if pyStartsWith s "http" then stripQuery e else e))

/-- `Video.__post_init__` (same shape as Voice). -/
def mkVideo (video : FileData) (name : String) : Except PyErr Model :=
  if name ≠ "" then .ok (.Video video name)
  else match video with
  | .fbytes | .fbytesio => .ok (.Video video "video")
  | .fpath p => .ok (.Video video (pyBasename p))
  | .fstr s =>
    if pyStartsWith s "base" then .error .valueError
    else
      let e := pyBasename s
      .ok (.Video video (if pyStartsWith s "http" then stripQuery e else e))

/-- `File.__post_init__`: in-memory payloads have no inferable name,
so they raise ValueError when no explicit name is supplied. -/
def mkFile (file : FileData) (name : String) : Except PyErr Model :=
  if name ≠ "" then .ok (.File file name)
  else match file with
  | .fbytes | .fbytesio => .error .valueError
  | .fpath p => .ok (.File file (pyBasename p))
  | .fstr s =>
    if pyStartsWith s "base" then .error .valueError
    else
      let e := pyBasename s
      .ok (.File file (if pyStartsWith s "http" then stripQuery e else e))

/-- `File.local_path`: succeeds on `Path` payloads and `file://` URIs,
raises ValueError otherwise. -/
def localPath : FileData → Except PyErr String
  | .fbytes | .fbytesio => .error .valueError
  | .fpath p => .ok p
  | .fstr s => if pyStartsWith s "file://" then .ok (String.mk (s.toList.drop 7)) else .error .valueError

/-!
## OB11 proxy (platforms.py lines 87-163)

The source accumulates *converted* segments in an `OB11Message`; since
conversion is a per-element function, the embedding accumulates the
source elements themselves and applies the conversion wherever the
source inspects or ships the accumulated segments (`msg["reply"]`,
the final `bot.send(event, msg)`).  Each outbound call therefore
records the elements whose conversions form its payload.
-/

/-- `Specifications.PLATFORM_QQ`. -/
def SPECS_PLATFORM_QQ : Nat := 1

/-- `Specifications.OB11_GOCQHTTP = 1024 + PLATFORM_QQ`. -/
def SPECS_OB11_GOCQHTTP : Nat := 1025

/-- `OB11Proxy.prefix`. -/
def ob11Pfx : String := "nonebot.adapters.onebot.v11"

/-- Python's `int(...)` coercion applied where OB11 segment
constructors take an id; mirrors `int(seg.user_id)` etc. -/
inductive IntOrStr where
  | int (i : Int)
  | str (s : String)
deriving DecidableEq, Repr

/-- OB11 native message segments, one constructor per `OB11MS.*`
factory the proxy calls. -/
inductive OB11Seg where
  | text (s : String)
  | image (f : FileData)
  | atSeg (uid : IntOrStr)
  | reply (mid : Int)
  | face (fid : Int)
  | record (f : FileData)
  | video (f : FileData)
  | share (url title : String) (content image : Option String)
  | location (lat lon : Int) (title content : Option String)
  | rawSeg (r : RawVal)
deriving DecidableEq, Repr

/-- Segment has type "reply" (what `msg["reply"]` collects). -/
def isReplySeg : OB11Seg → Bool
  | .reply _ => true
  | _ => false

/-- `OB11Proxy.convert` (platforms.py lines 90-117).  `int(...)` on a
non-numeric string raises ValueError.  `File` matches no branch and
falls through to the `alternative()` text; so does a `Raw` whose
payload class does not live under the OB11 adapter module. -/
def ob11Convert : Model → Except PyErr OB11Seg
  | .Text t => .ok (.text t)
  | .Image img _ => .ok (.image img)
  | .Mention u =>
    .ok (.atSeg (if pyIsDigit u then .int ((pyInt u).getD 0) else .str u))
  | .Reply m =>
    match pyInt m with
    | some i => .ok (.reply i)
    | none => .error .valueError
  | .Face f =>
    match pyInt f with
    | some i => .ok (.face i)
    | none => .error .valueError
  | .Voice v _ => .ok (.record v)
  | .Video v _ => .ok (.video v)
  | .Share u t c i =>
    .ok (.share u t (if c = "" then none else some c) (if i = "" then none else some i))
  | .Location la lo t c =>
    .ok (.location la lo (if t = "" then none else some t) (if c = "" then none else some c))
  | .Raw r =>
    if pyStartsWith (rawModule r) ob11Pfx then .ok (.rawSeg r)
    else .ok (.text (rawStr r))
  | m => .ok (.text m.alternative)

/-- The event attributes `OB11Proxy.send` reads for the go-cqhttp file
upload: `user_id` and an optional `group_id`. -/
structure OB11Event where
  user_id : Int
  group_id : Option Int
deriving DecidableEq, Repr

/-- One outbound call made by `OB11Proxy.send`. -/
inductive OB11Call where
  /-- `bot.send(event, msg)` for an accumulated message; `elems` are
  the source elements whose conversions were appended to `msg`. -/
  | message (elems : List Model)
  /-- `bot.upload_group_file(group_id=…, file=…, name=…)`. -/
  | uploadGroup (gid : Int) (path name : String)
  /-- `bot.upload_private_file(user_id=…, file=…, name=…)`. -/
  | uploadPrivate (uid : Int) (path name : String)
  /-- `bot.send(event, seg.raw)` passthrough of a Raw payload. -/
  | rawSend (r : RawVal)
  /-- `bot.send(event, await self.convert(seg))` dedicated call. -/
  | single (elem : Model)
  /-- `bot.send(event, s)` of a plain string (fallback path). -/
  | sendStr (s : String)
deriving DecidableEq, Repr

/-- `flush_with_log`: ship the accumulator as one call iff non-empty
(platforms.py lines 57-61). -/
def ob11Flush (acc : List Model) : List OB11Call :=
  if acc.isEmpty then [] else [.message acc]

/-- `msg["reply"]` truthiness: some accumulated element converted to a
reply-typed segment. -/
def ob11AccHasReply (acc : List Model) : Bool :=
  acc.any fun m =>
    match ob11Convert m with
    | .ok s => isReplySeg s
    | .error _ => false

/-- `isinstance(seg.raw, (str, OB11MS, OB11Message))`: a plain string,
or a native object of the OB11 adapter. -/
def ob11RawSendable (r : RawVal) : Bool :=
  match r with
  | .rstr _ => true
  | .rnative m _ => pyStartsWith m ob11Pfx

/-- The dedicated outbound call `OB11Proxy.send` issues for a
Mutex-class element (platforms.py lines 130-156): the go-cqhttp file
upload when the corresponding specs bits are set, the Raw passthrough
when the payload shape is directly sendable, otherwise a generic
single-element send of the converted form.  The `if/elif/else` on the
element's concrete class is rendered as a match on that class. -/
def ob11Dedicated (specs : Nat) (ev : OB11Event) : Model → Except PyErr OB11Call
  | .File f name =>
    if specs &&& SPECS_OB11_GOCQHTTP != 0 then
      (localPath f).map fun p =>
        match ev.group_id with
        | some gid => .uploadGroup gid p name
        | none => .uploadPrivate ev.user_id p name
    else (ob11Convert (.File f name)).map fun _ => .single (.File f name)
  | .Raw r =>
    if ob11RawSendable r then .ok (.rawSend r)
    else (ob11Convert (.Raw r)).map fun _ => .single (.Raw r)
  | m => (ob11Convert m).map fun _ => .single m

/-- The normal-mode partition loop of `OB11Proxy.send` (platforms.py
lines 122-163).  Returns the ordered trace of outbound calls issued
before returning or before an exception, and the exception if one was
raised. -/
def ob11Loop (specs : Nat) (ev : OB11Event) : List Model → List Model → List OB11Call × Option PyErr
  | [], acc => (ob11Flush acc, none)
  | seg :: rest, acc =>
    if isMutexModel seg then
      -- flush the accumulator, then issue the dedicated call
      let flushed := ob11Flush acc
      match ob11Dedicated specs ev seg with
      | .error e => (flushed, some e)
      | .ok c =>
        let t := ob11Loop specs ev rest []
        (flushed ++ c :: t.1, t.2)
    else
      -- Body/Single element: flag-guarded Reply×Image flush, then append
      let fa :=
        if (specs &&& SPECS_PLATFORM_QQ != 0) && ob11AccHasReply acc && isImageModel seg then
          (ob11Flush acc, [])
        else (([] : List OB11Call), acc)
      match ob11Convert seg with
      | .error e => (fa.1, some e)
      | .ok _ =>
        let t := ob11Loop specs ev rest (fa.2 ++ [seg])
        (fa.1 ++ t.1, t.2)

/-- `BaseProxy.send` as dispatched from a subclass proxy: the joined
items are the results of the *overridden* `convert`, i.e. native
segment objects, and `"".join` over non-strings raises TypeError
(it returns the empty string on an empty sequence). -/
def ob11SendFallback (segs : List Model) : List OB11Call × Option PyErr :=
  match segs.mapM ob11Convert with
  | .error e => ([], some e)
  | .ok [] => ([.sendStr ""], none)
  | .ok (_ :: _) => ([], some .typeError)

/-- `OB11Proxy.send` (platforms.py lines 119-163). -/
def ob11Send (specs : Nat) (ev : OB11Event) (useFallback : Bool) (segs : List Model) :
    List OB11Call × Option PyErr :=
  if useFallback then ob11SendFallback segs
  else ob11Loop specs ev segs []

/-- `BaseProxy.send` on a `BaseProxy` instance itself, where
`self.convert` returns `seg.alternative()`: one call carrying the
concatenation of the plain-text renderings.  The `use_fallback`
keyword is accepted and ignored. -/
def baseProxySend (segs : List Model) (_useFallback : Bool) : List String × Option PyErr :=
  ([String.join (segs.map Model.alternative)], none)

/-!
## OB12 proxy (platforms.py lines 344-422)

OB12 conversion uploads file payloads through `bot.upload_file` before
building a segment; the upload round-trip is abstracted as an oracle
from upload requests to file ids (or a failure that propagates).
-/

/-- `OB12Proxy.prefix`. -/
def ob12Pfx : String := "nonebot.adapters.onebot.v12"

/-- The `bot.upload_file` request shapes `_ob12_upload_file` builds
(platforms.py lines 352-367). -/
inductive UploadReq where
  | byUrl (name url : String)
  | byPath (name p : String)
  | byBytes (name : String)
deriving DecidableEq, Repr

/-- `_ob12_upload_file`'s dispatch on the payload shape; `"://" in
file` selects the url form.  All four payload shapes are covered, so
the trailing ValueError branch of the source is unreachable here. -/
def ob12UploadReq (f : FileData) (name : String) : UploadReq :=
  match f with
  | .fstr s => if (s.splitOn "://").length != 1 then .byUrl name s else .byPath name s
  | .fpath p => .byPath name p
  | .fbytes => .byBytes name
  | .fbytesio => .byBytes name

/-- Outcome of the platform's upload capability: `res["file_id"]`, or
a failure that propagates to the caller. -/
def UploadOracle := UploadReq → Except PyErr String

/-- OB12 native message segments. -/
inductive OB12Seg where
  | text (s : String)
  | mention (uid : String)
  | mention_all
  | reply (mid : String)
  | image (fileId : String)
  | voice (fileId : String)
  | video (fileId : String)
  | file (fileId : String)
  | location (lat lon : Int) (title content : String)
  | rawSeg (r : RawVal)
deriving DecidableEq, Repr

/-- Segment has type "reply". -/
def isOB12ReplySeg : OB12Seg → Bool
  | .reply _ => true
  | _ => false

/-- `OB12Proxy.convert` (platforms.py lines 375-396).  `Face` matches
no branch and degrades to text. -/
def ob12Convert (up : UploadOracle) : Model → Except PyErr OB12Seg
  | .Text t => .ok (.text t)
  | .Mention u => .ok (if u ≠ "@all" then .mention u else .mention_all)
  | .Reply m => .ok (.reply m)
  | .Image img name => (up (ob12UploadReq img name)).map .image
  | .Voice v name => (up (ob12UploadReq v name)).map .voice
  | .Video v name => (up (ob12UploadReq v name)).map .video
  | .File f name => (up (ob12UploadReq f name)).map .file
  | .Location la lo t c => .ok (.location la lo t c)
  | .Raw r =>
    if pyStartsWith (rawModule r) ob12Pfx then .ok (.rawSeg r)
    else .ok (.text (rawStr r))
  | m => .ok (.text m.alternative)

/-- One outbound call made by `OB12Proxy.send`. -/
inductive OB12Call where
  | message (elems : List Model)
  | rawSend (r : RawVal)
  | single (elem : Model)
  | sendStr (s : String)
deriving DecidableEq, Repr

/-- `flush_with_log` for the OB12 accumulator. -/
def ob12Flush (acc : List Model) : List OB12Call :=
  if acc.isEmpty then [] else [.message acc]

/-- `msg["reply"]` truthiness for the OB12 accumulator. -/
def ob12AccHasReply (up : UploadOracle) (acc : List Model) : Bool :=
  acc.any fun m =>
    match ob12Convert up m with
    | .ok s => isOB12ReplySeg s
    | .error _ => false

/-- `isinstance(seg.raw, (str, OB12MS, OB12Message))`. -/
def ob12RawSendable (r : RawVal) : Bool :=
  match r with
  | .rstr _ => true
  | .rnative m _ => pyStartsWith m ob12Pfx

/-- The dedicated outbound call `OB12Proxy.send` issues for a
Mutex-class element (platforms.py lines 404-415). -/
def ob12Dedicated (up : UploadOracle) : Model → Except PyErr OB12Call
  | .Raw r =>
    if ob12RawSendable r then .ok (.rawSend r)
    else (ob12Convert up (.Raw r)).map fun _ => .single (.Raw r)
  | m => (ob12Convert up m).map fun _ => .single m

/-- The normal-mode partition loop of `OB12Proxy.send` (platforms.py
lines 401-422): same shape as OB11 without the go-cqhttp file branch. -/
def ob12Loop (specs : Nat) (up : UploadOracle) : List Model → List Model → List OB12Call × Option PyErr
  | [], acc => (ob12Flush acc, none)
  | seg :: rest, acc =>
    if isMutexModel seg then
      let flushed := ob12Flush acc
      match ob12Dedicated up seg with
      | .error e => (flushed, some e)
      | .ok c =>
        let t := ob12Loop specs up rest []
        (flushed ++ c :: t.1, t.2)
    else
      let fa :=
        if (specs &&& SPECS_PLATFORM_QQ != 0) && ob12AccHasReply up acc && isImageModel seg then
          (ob12Flush acc, [])
        else (([] : List OB12Call), acc)
      match ob12Convert up seg with
      | .error e => (fa.1, some e)
      | .ok _ =>
        let t := ob12Loop specs up rest (fa.2 ++ [seg])
        (fa.1 ++ t.1, t.2)

/-- `OB12Proxy.send`: fallback delegates to `BaseProxy.send`, whose
`self.convert` dispatches back to `OB12Proxy.convert`, so the string
join is attempted over native segments. -/
def ob12Send (specs : Nat) (up : UploadOracle) (useFallback : Bool) (segs : List Model) :
    List OB12Call × Option PyErr :=
  if useFallback then
    match segs.mapM (ob12Convert up) with
    | .error e => ([], some e)
    | .ok [] => ([.sendStr ""], none)
    | .ok (_ :: _) => ([], some .typeError)
  else ob12Loop specs up segs []

/-!
## QQ guild proxy (platforms.py lines 437-478)

`QGProxy.send` has no Mutex branch; its two capacity checks flush the
accumulator and *discard* the incoming element (the flush branches do
not append it).  `QGProxy.convert` reads `seg.domain` on a Mention,
an attribute models.Mention does not define, so that path raises
AttributeError.
-/

/-- `QGProxy.prefix`. -/
def qgPfx : String := "nonebot.adapters.qqguild"

/-- QQ guild native message segments. -/
inductive QGSeg where
  | text (s : String)
  | attachment (url : String)
  | file_image (f : FileData)
  | mention_user (uid : Int)
  | mention_channel (cid : Int)
  | reference (mid : String)
  | emoji (fid : String)
  | rawSeg (r : RawVal)
deriving DecidableEq, Repr

/-- `QGProxy.convert` (platforms.py lines 440-455). -/
def qgConvert : Model → Except PyErr QGSeg
  | .Text t => .ok (.text t)
  | .Image img _ =>
    .ok (match img with
      | .fstr s => .attachment s
      | f => .file_image f)
  | .Mention _ =>
    -- `seg.domain`: models.Mention defines no `domain` field, so the
    -- attribute access raises at runtime
    .error .attributeError
  | .Reply m => .ok (.reference m)
  | .Face f => .ok (.emoji f)
  | .Raw r =>
    if pyStartsWith (rawModule r) qgPfx then .ok (.rawSeg r)
    else .ok (.text (rawStr r))
  | m => .ok (.text m.alternative)

/-- One outbound call made by `QGProxy.send`. -/
inductive QGCall where
  | message (elems : List Model)
  | rawSend (r : RawVal)
  | sendStr (s : String)
deriving DecidableEq, Repr

/-- `flush_with_log` for the QG accumulator. -/
def qgFlush (acc : List Model) : List QGCall :=
  if acc.isEmpty then [] else [.message acc]

/-- A successfully converted segment of type "attachment" or
"file_image" (what `msg["attachment"]`/`msg["file_image"]` collect). -/
def qgSegIsImage : Except PyErr QGSeg → Bool
  | .ok (.attachment _) => true
  | .ok (.file_image _) => true
  | _ => false

/-- A successfully converted segment of type "reference". -/
def qgSegIsReference : Except PyErr QGSeg → Bool
  | .ok (.reference _) => true
  | _ => false

/-- `msg["attachment"] or msg["file_image"]` truthiness. -/
def qgAccHasImageSeg (acc : List Model) : Bool :=
  acc.any fun m => qgSegIsImage (qgConvert m)

/-- `msg["reference"]` truthiness. -/
def qgAccHasReference (acc : List Model) : Bool :=
  acc.any fun m => qgSegIsReference (qgConvert m)

/-- `isinstance(seg.raw, (str, QGMS, QGMessage))`. -/
def qgRawSendable (r : RawVal) : Bool :=
  match r with
  | .rstr _ => true
  | .rnative m _ => pyStartsWith m qgPfx

/-- What the body of `QGProxy.send`'s loop does with one arriving
element, given the current accumulator (platforms.py lines 462-475):
capacity conflict → flush, element discarded (the branch does not
append it); directly sendable Raw → flush then dedicated raw send;
otherwise convert and append (a conversion failure propagates). -/
inductive QGStep where
  | flushDrop
  | flushRaw (r : RawVal)
  | append
  | err (e : PyErr)
deriving DecidableEq, Repr

/-- The `if/elif/elif/else` chain of `QGProxy.send` for one element. -/
def qgStep (acc : List Model) (seg : Model) : QGStep :=
  if isImageModel seg && qgAccHasImageSeg acc then .flushDrop
  else if isReplyModel seg && qgAccHasReference acc then .flushDrop
  else
    match seg with
    | .Raw r =>
      if qgRawSendable r then .flushRaw r
      else
        match qgConvert (.Raw r) with
        | .error e => .err e
        | .ok _ => .append
    | m =>
      match qgConvert m with
      | .error e => .err e
      | .ok _ => .append

/-- The normal-mode loop of `QGProxy.send` (platforms.py lines
460-478), iterating `qgStep` left to right. -/
def qgLoop : List Model → List Model → List QGCall × Option PyErr
  | [], acc => (qgFlush acc, none)
  | seg :: rest, acc =>
    match qgStep acc seg with
    | .flushDrop =>
      let t := qgLoop rest []
      (qgFlush acc ++ t.1, t.2)
    | .flushRaw r =>
      let t := qgLoop rest []
      (qgFlush acc ++ .rawSend r :: t.1, t.2)
    | .err e => ([], some e)
    | .append => qgLoop rest (acc ++ [seg])

/-- `QGProxy.send`. -/
def qgSend (useFallback : Bool) (segs : List Model) : List QGCall × Option PyErr :=
  if useFallback then
    match segs.mapM qgConvert with
    | .error e => ([], some e)
    | .ok [] => ([.sendStr ""], none)
    | .ok (_ :: _) => ([], some .typeError)
  else qgLoop segs []

/-!
## Buffer operations (`__init__.py`, `base.py`)
-/

/-- Result of `revert`: either the remaining buffer, or an IndexError
carrying the buffer contents at the moment the error is raised. -/
inductive RevertRes where
  | ok (buf : List Model)
  | indexError (buf : List Model)
deriving DecidableEq, Repr

/-- `MessageBuffer.revert` / `MsgBufManager.revert` (identical code,
`__init__.py` lines 134-142 and base.py lines 26-34): pop the tail
`n` times; `deque.pop()` on an empty deque raises IndexError, leaving
previous pops in effect. -/
def revert : List Model → Nat → RevertRes
  | buf, 0 => .ok buf
  | buf, n + 1 =>
    if buf.isEmpty then .indexError buf
    else revert buf.dropLast n

/-- Python dataclass positional-argument arity for `Mention`:
`Mention(user_id)` takes exactly one positional argument; any other
count raises TypeError at the call site. -/
def mentionInit (args : List String) : Except PyErr Model :=
  match args with
  | [u] => .ok (.Mention u)
  | _ => .error .typeError

/-- `MsgBufManager.mention` (base.py lines 51-54): always calls
`Mention(str(uid), domain)` with two positional arguments. -/
def manager_mention (uid domain : String) : Except PyErr Model :=
  mentionInit [uid, domain]

/-!
## Send orchestrator (`MessageBuffer`, `__init__.py` lines 46-174)

The proxy's send is abstracted as an oracle mapping the attempt index
and the `use_fallback` flag to an outcome.  Only `ActionFailed` is
caught by the retry ladder; any other exception propagates at once.
-/

/-- Outcome of one `proxy.send` attempt. -/
inductive AttemptOut where
  | ok
  | actionFailed
  | otherRaise
deriving DecidableEq, Repr

/-- Final outcome of `MessageBuffer.send`. -/
inductive SendRes where
  | success
  | failedAF
  | raisedOther
deriving DecidableEq, Repr

/-- Whether the send returned normally. -/
def SendRes.isSuccess : SendRes → Bool
  | .success => true
  | _ => false

/-- `MessageBuffer.send` (`__init__.py` lines 144-168) acting on the
`retry`/`fallback` counters.  Returns the trace of attempts (each
attempt's `use_fallback` flag, in order), the final counter values and
the outcome.  On ActionFailed: decrement `retry` and recurse without
fallback while `retry > 0`; else decrement `fallback` and recurse with
`use_fallback=True` while `fallback > 0`; else re-raise. -/
def mbSend (o : Nat → Bool → AttemptOut) : Bool → Nat → Nat → Nat →
    List Bool × Nat × Nat × SendRes
  | fb, idx, r, f =>
    match o idx fb with
    | .ok => ([fb], r, f, .success)
    | .otherRaise => ([fb], r, f, .raisedOther)
    | .actionFailed =>
      match r, f with
      | r' + 1, f =>
        let t := mbSend o false (idx + 1) r' f
        (fb :: t.1, t.2)
      | 0, f' + 1 =>
        let t := mbSend o true (idx + 1) 0 f'
        (fb :: t.1, t.2)
      | 0, 0 => ([fb], 0, 0, .failedAF)
termination_by _ _ r f => r + f

/-- The orchestrator's mutable state: the two counters plus the
buffered elements (the proxy receives the elements read-only via
argument unpacking; `send` assigns only `self.retry`/`self.fallback`). -/
structure MBuf where
  retry : Nat
  fallback : Nat
  buf : List Model
deriving DecidableEq, Repr

/-- `MessageBuffer.send` at the instance level: the counters are
updated in place, the buffer is not touched. -/
def mbSendSt (o : Nat → Bool → AttemptOut) (st : MBuf) : MBuf × List Bool × SendRes :=
  let t := mbSend o false 0 st.retry st.fallback
  ({ st with retry := t.2.1, fallback := t.2.2.1 }, t.1, t.2.2.2)

/-- `MessageBuffer.flush` (`__init__.py` lines 170-174): `send()` then
`msgbuf.clear()`; the clear is skipped when `send` raises. -/
def mbFlush (o : Nat → Bool → AttemptOut) (st : MBuf) : MBuf × SendRes :=
  let t := mbSendSt o st
  match t.2.2 with
  | .success => ({ t.1 with buf := [] }, .success)
  | res => (t.1, res)

/-- The oracle under which every attempt raises ActionFailed. -/
def allFailOracle : Nat → Bool → AttemptOut := fun _ _ => .actionFailed

/-- `MessageBuffer.__aexit__` (`__init__.py` lines 101-114).  Returns
whether `self.send()` is invoked, and the handler's return value
(`False` when an exception is pending, `None` otherwise); a context
manager suppresses the exception iff the return value is truthy. -/
def aexit (ifsend send_incomplete : Bool) (buf : List Model) (exc : Bool) :
    Bool × Option Bool :=
  (ifsend && (!exc || send_incomplete) && !buf.isEmpty,
   if exc then some false else none)

/-- Truthiness of the `__aexit__` return value, i.e. whether the
pending exception would be suppressed. -/
def aexitSuppresses (ifsend send_incomplete : Bool) (buf : List Model) (exc : Bool) : Bool :=
  ((aexit ifsend send_incomplete buf exc).2.getD false)

/-- Modelled from the spec's words (refinement reference for C6): the
spec's auto-flush condition — sending enabled AND buffer non-empty AND
(no error OR send-on-incomplete). -/
def aexitSendSpec (ifsend send_incomplete bufNonempty exc : Bool) : Bool :=
  ifsend && bufNonempty && (!exc || send_incomplete)

/-!
## Proxy resolution (platforms.py lines 51-52, 584-592)
-/

/-- A registered proxy class: its name and declared platform module
`prefix` attribute. -/
structure ProxyCls where
  name : String
  pfx : String
deriving DecidableEq, Repr

/-- The generic `BaseProxy` returned when nothing matches. -/
def baseProxyCls : ProxyCls := ⟨"BaseProxy", ""⟩

/-- `BaseProxy.registered_proxies` as populated by
`__init_subclass__` in definition order, when all four adapter
imports succeed. -/
def registeredProxies : List ProxyCls :=
  [⟨"OB11Proxy", "nonebot.adapters.onebot.v11"⟩,
   ⟨"OB12Proxy", "nonebot.adapters.onebot.v12"⟩,
   ⟨"QGProxy", "nonebot.adapters.qqguild"⟩,
   ⟨"TGProxy", "nonebot.adapters.telegram"⟩]

/-- `find_proxy` (platforms.py lines 584-592): the first registered
class whose `prefix` attribute is a prefix of `bot.__module__`, else
`BaseProxy`. -/
def find_proxy (reg : List ProxyCls) (botModule : String) : ProxyCls :=
  (reg.find? fun p => pyStartsWith botModule p.pfx).getD baseProxyCls

/-!
## Call-shape predicates used by the claims
-/

/-- A combined OB11 call carries no Mutex-class element (dedicated
calls trivially satisfy this: they carry exactly one element). -/
def ob11CallMutexFree : OB11Call → Bool
  | .message elems => elems.all fun m => !isMutexModel m
  | _ => true

/-- Within one call, no Reply element occurs before an Image element. -/
def noReplyThenImage : List Model → Bool
  | [] => true
  | m :: rest =>
    (!isReplyModel m || rest.all fun x => !isImageModel x) && noReplyThenImage rest

/-- The flag-guarded guarantee OB11 actually enforces per call. -/
def ob11CallNoReplyThenImage : OB11Call → Bool
  | .message elems => noReplyThenImage elems
  | _ => true

/-- The flag-guarded guarantee OB12 actually enforces per call. -/
def ob12CallNoReplyThenImage : OB12Call → Bool
  | .message elems => noReplyThenImage elems
  | _ => true

/-- QG per-call caps: at most one Reply and at most one Image. -/
def qgCallCapOK : QGCall → Bool
  | .message elems =>
    decide (elems.countP isReplyModel ≤ 1) && decide (elems.countP isImageModel ≤ 1)
  | _ => true

/-!
## Helper lemmas: orchestrator
-/

lemma mbSend_allfail (fb : Bool) (idx r f : Nat) :
    mbSend allFailOracle fb idx r f
      = (fb :: (List.replicate r false ++ List.replicate f true), 0, 0, .failedAF) := by
  induction r generalizing fb idx with
  | zero =>
    induction f generalizing fb idx with
    | zero => simp [mbSend, allFailOracle]
    | succ f' ihf => simp [mbSend, allFailOracle, ihf, List.replicate_succ]
  | succ r' ihr => simp [mbSend, allFailOracle, ihr, List.replicate_succ]

lemma mbSend_mono_zero (o : Nat → Bool → AttemptOut) (fb : Bool) (idx f : Nat) :
    (mbSend o fb idx 0 f).2.1 ≤ 0 ∧ (mbSend o fb idx 0 f).2.2.1 ≤ f := by
  induction f generalizing fb idx with
  | zero => cases h : o idx fb <;> simp [mbSend, h]
  | succ f' ihf =>
    cases h : o idx fb <;> simp [mbSend, h]
    exact ⟨Nat.le_zero.mp (ihf true (idx + 1)).1, Nat.le_succ_of_le (ihf true (idx + 1)).2⟩

lemma mbSend_mono (o : Nat → Bool → AttemptOut) (fb : Bool) (idx r f : Nat) :
    (mbSend o fb idx r f).2.1 ≤ r ∧ (mbSend o fb idx r f).2.2.1 ≤ f := by
  induction r generalizing fb idx with
  | zero => exact mbSend_mono_zero o fb idx f
  | succ r' ihr =>
    cases h : o idx fb <;> simp [mbSend, h]
    exact ⟨Nat.le_succ_of_le (ihr false (idx + 1)).1, (ihr false (idx + 1)).2⟩

/-!
## Helper lemmas: buffer revert
-/

lemma revert_underflow : ∀ (n : Nat) (buf : List Model), buf.length < n →
    revert buf n = .indexError [] := by
  intro n
  induction n with
  | zero => intro buf h; omega
  | succ n' ih =>
    intro buf h
    by_cases he : buf.isEmpty
    · have : buf = [] := List.isEmpty_iff.mp he
      simp [revert, he, this]
    · have hne : buf ≠ [] := fun hb => he (by simp [hb])
      have hlen : buf.dropLast.length < n' := by
        have h1 : 0 < buf.length := List.length_pos.mpr hne
        simp [List.length_dropLast]
        omega
      simp [revert, he]
      exact ih buf.dropLast hlen

/-!
## Claim theorems (first batch)
-/

/-- Claim C3 (code_bug): the claim says fallback mode always succeeds
with exactly one outbound call of the concatenated `alternative()`
strings.  On the concrete platform proxies `super().send` dispatches
back to the *subclass* `convert`, so `"".join` receives native
segment objects and raises TypeError (shown here for OB11 and QG at
the failing input `[Text "a"]`).  Only the generic `BaseProxy`
behaves as claimed. -/
theorem claim_c3_fallback_bug :
    ob11Send 0 ⟨10, none⟩ true [.Text "a"] = ([], some .typeError)
    ∧ qgSend true [.Text "a"] = ([], some .typeError)
    ∧ ∀ (segs : List Model) (fb : Bool),
        baseProxySend segs fb = ([String.join (segs.map Model.alternative)], none) :=
  ⟨rfl, rfl, fun _ _ => rfl⟩

/-- Claim C4: when every attempt raises ActionFailed, the send makes
the initial attempt plus `retry` plain retries (use_fallback = false)
followed by `fallback` fallback retries (use_fallback = true), both
counters reaching zero, and re-raises; hence 1 + retry + fallback
attempts in total, e.g. 4 attempts for retry = 2, fallback = 1. -/
theorem claim_c4_retry_budget :
    (∀ (fb : Bool) (idx r f : Nat),
      mbSend allFailOracle fb idx r f
        = (fb :: (List.replicate r false ++ List.replicate f true), 0, 0, .failedAF)
      ∧ (mbSend allFailOracle fb idx r f).1.length = 1 + r + f)
    ∧ mbSend allFailOracle false 0 2 1 = ([false, false, false, true], 0, 0, .failedAF) := by
  refine ⟨fun fb idx r f => ⟨mbSend_allfail fb idx r f, ?_⟩, ?_⟩
  · rw [mbSend_allfail]
    simp
    omega
  · rw [mbSend_allfail]
    rfl

/-- Claim C5 counterexample: `revert(3)` on the 2-element buffer
`[Text "x", Text "y"]` raises IndexError with the buffer already
emptied — not with the two elements still present as claimed. -/
theorem claim_c5_counterexample :
    revert [Model.Text "x", Model.Text "y"] 3 = .indexError []
    ∧ RevertRes.indexError ([] : List Model)
        ≠ RevertRes.indexError [Model.Text "x", Model.Text "y"] := by
  constructor
  · rfl
  · decide

/-- Claim C5 (amended): for every buffer of length L and every n > L,
`revert n` raises IndexError, but only after popping all L elements：
the buffer is left empty, not unchanged. -/
theorem claim_c5_amended :
    ∀ (buf : List Model) (n : Nat), buf.length < n → revert buf n = .indexError [] :=
  fun buf n h => revert_underflow n buf h

/-- Witness for C5 at a concrete input. -/
theorem claim_c5_amended_witness :
    revert [Model.Text "u", Model.Text "v"] 3 = .indexError [] :=
  claim_c5_amended [Model.Text "u", Model.Text "v"] 3 (by decide)

/-- Claim C6: on exit of the async scope a send is performed iff
sending is enabled AND the buffer is non-empty AND (no exception is
pending OR send_incomplete is set); and the handler's return value is
never truthy, so a pending exception is never suppressed. -/
theorem claim_c6_aexit :
    ∀ (ifsend send_incomplete : Bool) (buf : List Model) (exc : Bool),
      (aexit ifsend send_incomplete buf exc).1
        = aexitSendSpec ifsend send_incomplete (!buf.isEmpty) exc
      ∧ aexitSuppresses ifsend send_incomplete buf exc = false := by
  intro ifsend send_incomplete buf exc
  constructor
  · cases ifsend <;> cases send_incomplete <;> cases exc <;>
      simp [aexit, aexitSendSpec, Bool.and_comm]
  · cases exc <;> simp [aexitSuppresses, aexit]

/-- Claim C8 (code_bug): `models.Mention` carries only `user_id`, so
`MsgBufManager.mention` (which always passes a second positional
`domain` argument) raises TypeError — even for the default empty
domain — and `QGProxy.convert` raises AttributeError reading
`seg.domain` on any Mention element. -/
theorem claim_c8_mention_domain_bug :
    manager_mention "123" "channel" = .error .typeError
    ∧ manager_mention "123" "" = .error .typeError
    ∧ qgConvert (.Mention "123") = .error .attributeError :=
  ⟨rfl, rfl, rfl⟩

/-- Claim C9: `send` never changes the buffered elements regardless of
the attempt outcomes, and `flush` clears the buffer exactly when its
inner `send` returned successfully, leaving it untouched when the
send ultimately raises. -/
theorem claim_c9_buffer_preserved :
    ∀ (o : Nat → Bool → AttemptOut) (st : MBuf),
      (mbSendSt o st).1.buf = st.buf
      ∧ (mbFlush o st).1.buf
          = (if ((mbFlush o st).2.isSuccess) then [] else st.buf) := by
  intro o st
  constructor
  · simp [mbSendSt]
  · cases h : (mbSend o false 0 st.retry st.fallback).2.2.2 <;>
      simp [mbFlush, mbSendSt, h, SendRes.isSuccess]

/-- Claim C10: the retry/fallback counters only ever decrease across a
send, and exhaustion is persistent instance state: after an all-failing
send both counters are zero, and a subsequent send on the same
orchestrator makes exactly one attempt (the leftover budget, not the
configured initial values). -/
theorem claim_c10_budget_persistent :
    (∀ (o : Nat → Bool → AttemptOut) (fb : Bool) (idx r f : Nat),
      (mbSend o fb idx r f).2.1 ≤ r ∧ (mbSend o fb idx r f).2.2.1 ≤ f)
    ∧ ∀ (st : MBuf),
        (mbSendSt allFailOracle st).1.retry = 0
        ∧ (mbSendSt allFailOracle st).1.fallback = 0
        ∧ (mbSendSt allFailOracle ((mbSendSt allFailOracle st).1)).2.1.length = 1 := by
  refine ⟨fun o fb idx r f => mbSend_mono o fb idx r f, fun st => ?_⟩
  refine ⟨?_, ?_, ?_⟩ <;> simp [mbSendSt, mbSend_allfail]

/-!
## Helper lemmas: OB11 partitioning
-/

lemma map_single_ne_message {e : Except PyErr OB11Seg} {m : Model} {elems : List Model} :
    (e.map fun _ => OB11Call.single m) ≠ .ok (.message elems) := by
  cases e <;> simp [Except.map]

lemma ob11Dedicated_no_message (specs : Nat) (ev : OB11Event) (seg : Model)
    (elems : List Model) : ob11Dedicated specs ev seg ≠ .ok (.message elems) := by
  intro h
  cases seg <;> simp only [ob11Dedicated] at h <;>
    try exact map_single_ne_message h
  case File f name =>
    split at h
    · rcases hl : localPath f with e | p <;> rw [hl] at h <;> simp [Except.map] at h
      cases hg : ev.group_id <;> rw [hg] at h <;> simp at h
    · exact map_single_ne_message h
  case Raw r =>
    split at h
    · simp at h
    · exact map_single_ne_message h

lemma ob11Flush_all (P : OB11Call → Bool) (acc : List Model)
    (h : P (.message acc) = true) : ((ob11Flush acc).all P) = true := by
  unfold ob11Flush
  split <;> simp [h]

lemma ob11Loop_mutexFree (specs : Nat) (ev : OB11Event) :
    ∀ (segs acc : List Model), (acc.all fun m => !isMutexModel m) = true →
    ((ob11Loop specs ev segs acc).1.all ob11CallMutexFree) = true := by
  intro segs
  induction segs with
  | nil =>
    intro acc h
    simp only [ob11Loop]
    exact ob11Flush_all _ _ (by simpa [ob11CallMutexFree] using h)
  | cons seg rest ih =>
    intro acc h
    simp only [ob11Loop]
    cases hm : isMutexModel seg
    · simp only [hm, Bool.false_eq_true, if_false]
      by_cases hcond :
          ((specs &&& SPECS_PLATFORM_QQ != 0) && ob11AccHasReply acc && isImageModel seg) = true
      · rw [if_pos hcond]
        cases hc : ob11Convert seg
        · simpa using ob11Flush_all ob11CallMutexFree acc (by simpa [ob11CallMutexFree] using h)
        · simp only [List.all_append, Bool.and_eq_true]
          exact ⟨ob11Flush_all _ _ (by simpa [ob11CallMutexFree] using h),
            ih ([] ++ [seg]) (by simp [hm])⟩
      · rw [if_neg hcond]
        cases hc : ob11Convert seg
        · simp
        · simpa using ih (acc ++ [seg]) (by simp [List.all_append, h, hm])
    · simp only [hm, if_true]
      cases hd : ob11Dedicated specs ev seg
      · exact ob11Flush_all _ _ (by simpa [ob11CallMutexFree] using h)
      · rename_i c
        simp only [List.all_append, List.all_cons, Bool.and_eq_true]
        refine ⟨ob11Flush_all _ _ (by simpa [ob11CallMutexFree] using h), ?_, ih [] (by simp)⟩
        cases c with
        | message elems => exact absurd hd (ob11Dedicated_no_message specs ev seg elems)
        | _ => rfl

/-- Claim C1: in normal (non-fallback) OB11 send mode, for every
input sequence (and any specs/event), no combined outbound call ever
contains a Mutex-class element — a Mutex element is always issued as
its own dedicated call after the accumulator is flushed — and the
concrete sequence [Text "a", Voice bytes, Text "b"] produces exactly
the three calls [Text "a"], [Voice], [Text "b"]. -/
theorem claim_c1_mutex_isolation :
    (∀ (specs : Nat) (ev : OB11Event) (segs : List Model),
      ((ob11Send specs ev false segs).1.all ob11CallMutexFree) = true)
    ∧ mkVoice .fbytes "" = .ok (.Voice .fbytes "voice")
    ∧ ob11Send 0 ⟨10, none⟩ false [.Text "a", .Voice .fbytes "voice", .Text "b"]
        = ([.message [.Text "a"], .single (.Voice .fbytes "voice"), .message [.Text "b"]],
           none) := by
  refine ⟨fun specs ev segs => ?_, rfl, rfl⟩
  simp only [ob11Send, Bool.false_eq_true, if_false]
  exact ob11Loop_mutexFree specs ev segs [] (by simp)

/-!
## Helper lemmas: Reply/Image ordering within one call
-/

lemma nrti_singleton (x : Model) : noReplyThenImage [x] = true := by
  simp [noReplyThenImage]

lemma nrti_append_nonImage (l : List Model) (x : Model)
    (hl : noReplyThenImage l = true) (hx : isImageModel x = false) :
    noReplyThenImage (l ++ [x]) = true := by
  induction l with
  | nil => simp [noReplyThenImage, hx]
  | cons m l ih =>
    simp only [noReplyThenImage, Bool.and_eq_true] at hl ⊢
    refine ⟨?_, ih hl.2⟩
    rcases Bool.or_eq_true_iff.mp hl.1 with h1 | h1
    · simp [h1]
    · simp [List.all_append, h1, hx]

lemma nrti_append_of_noReply (l : List Model) (x : Model)
    (hl : (l.all fun m => !isReplyModel m) = true) :
    noReplyThenImage (l ++ [x]) = true := by
  induction l with
  | nil => simp [noReplyThenImage]
  | cons m l ih =>
    simp only [List.all_cons, Bool.and_eq_true] at hl
    simp only [List.cons_append, noReplyThenImage, Bool.and_eq_true]
    exact ⟨by simp [hl.1], ih hl.2⟩

/-- Conversion succeeds on this element (OB11). -/
def exOk11 (m : Model) : Bool :=
  match ob11Convert m with
  | .ok _ => true
  | .error _ => false

lemma ob11AccHasReply_false (acc : List Model)
    (hok : (acc.all exOk11) = true) (h : ob11AccHasReply acc = false) :
    (acc.all fun m => !isReplyModel m) = true := by
  induction acc with
  | nil => rfl
  | cons m l ih =>
    simp only [ob11AccHasReply, List.any_cons, Bool.or_eq_false_iff] at h
    simp only [List.all_cons, Bool.and_eq_true] at hok ⊢
    refine ⟨?_, ih hok.2 (by simpa [ob11AccHasReply] using h.2)⟩
    cases m <;> simp [isReplyModel]
    case Reply s =>
      cases ht : pyInt s with
      | none => simp [exOk11, ob11Convert, ht] at hok
      | some i => simp [ob11Convert, ht, isReplySeg] at h

lemma ob11Loop_nrti (specs : Nat) (ev : OB11Event)
    (hq : (specs &&& SPECS_PLATFORM_QQ != 0) = true) :
    ∀ (segs acc : List Model), (acc.all exOk11) = true → noReplyThenImage acc = true →
    ((ob11Loop specs ev segs acc).1.all ob11CallNoReplyThenImage) = true := by
  intro segs
  induction segs with
  | nil =>
    intro acc _ hn
    simp only [ob11Loop]
    exact ob11Flush_all _ _ (by simpa [ob11CallNoReplyThenImage] using hn)
  | cons seg rest ih =>
    intro acc hok hn
    simp only [ob11Loop]
    cases hm : isMutexModel seg
    · simp only [hm, Bool.false_eq_true, if_false]
      by_cases hcond :
          ((specs &&& SPECS_PLATFORM_QQ != 0) && ob11AccHasReply acc && isImageModel seg) = true
      · rw [if_pos hcond]
        cases hc : ob11Convert seg
        · simpa using ob11Flush_all ob11CallNoReplyThenImage acc
            (by simpa [ob11CallNoReplyThenImage] using hn)
        · simp only [List.all_append, Bool.and_eq_true]
          refine ⟨ob11Flush_all _ _ (by simpa [ob11CallNoReplyThenImage] using hn), ?_⟩
          exact ih ([] ++ [seg]) (by simp [exOk11, hc]) (by simpa using nrti_singleton seg)
      · rw [if_neg hcond]
        cases hc : ob11Convert seg
        · simp
        · have hokx : ((acc ++ [seg]).all exOk11) = true := by
            simp [List.all_append, hok, exOk11, hc]
          have hnx : noReplyThenImage (acc ++ [seg]) = true := by
            cases himg : isImageModel seg
            · exact nrti_append_nonImage acc seg hn himg
            · have hrep : ob11AccHasReply acc = false := by
                rcases Bool.eq_false_or_eq_true (ob11AccHasReply acc) with hr | hr
                · exact absurd (by simp [hq, hr, himg]) hcond
                · exact hr
              exact nrti_append_of_noReply acc seg (ob11AccHasReply_false acc hok hrep)
          simpa using ih (acc ++ [seg]) hokx hnx
    · simp only [hm, if_true]
      cases hd : ob11Dedicated specs ev seg
      · exact ob11Flush_all _ _ (by simpa [ob11CallNoReplyThenImage] using hn)
      · rename_i c
        simp only [List.all_append, List.all_cons, Bool.and_eq_true]
        refine ⟨ob11Flush_all _ _ (by simpa [ob11CallNoReplyThenImage] using hn), ?_,
          ih [] (by simp) (by simp [noReplyThenImage])⟩
        cases c with
        | message elems => exact absurd hd (ob11Dedicated_no_message specs ev seg elems)
        | _ => rfl

/-!
## Helper lemmas: OB12 partitioning
-/

lemma map12_single_ne_message {e : Except PyErr OB12Seg} {m : Model} {elems : List Model} :
    (e.map fun _ => OB12Call.single m) ≠ .ok (.message elems) := by
  cases e <;> simp [Except.map]

lemma ob12Dedicated_no_message (up : UploadOracle) (seg : Model) (elems : List Model) :
    ob12Dedicated up seg ≠ .ok (.message elems) := by
  intro h
  cases seg <;> simp only [ob12Dedicated] at h <;>
    try exact map12_single_ne_message h
  case Raw r =>
    split at h
    · simp at h
    · exact map12_single_ne_message h

lemma ob12Flush_all (P : OB12Call → Bool) (acc : List Model)
    (h : P (.message acc) = true) : ((ob12Flush acc).all P) = true := by
  unfold ob12Flush
  split <;> simp [h]

lemma ob12AccHasReply_false (up : UploadOracle) (acc : List Model)
    (h : ob12AccHasReply up acc = false) :
    (acc.all fun m => !isReplyModel m) = true := by
  induction acc with
  | nil => rfl
  | cons m l ih =>
    simp only [ob12AccHasReply, List.any_cons, Bool.or_eq_false_iff] at h
    simp only [List.all_cons, Bool.and_eq_true]
    refine ⟨?_, ih (by simpa [ob12AccHasReply] using h.2)⟩
    cases m <;> simp [isReplyModel]
    case Reply s => simp [ob12Convert, isOB12ReplySeg] at h

lemma ob12Loop_nrti (specs : Nat) (up : UploadOracle)
    (hq : (specs &&& SPECS_PLATFORM_QQ != 0) = true) :
    ∀ (segs acc : List Model), noReplyThenImage acc = true →
    ((ob12Loop specs up segs acc).1.all ob12CallNoReplyThenImage) = true := by
  intro segs
  induction segs with
  | nil =>
    intro acc hn
    simp only [ob12Loop]
    exact ob12Flush_all _ _ (by simpa [ob12CallNoReplyThenImage] using hn)
  | cons seg rest ih =>
    intro acc hn
    simp only [ob12Loop]
    cases hm : isMutexModel seg
    · simp only [hm, Bool.false_eq_true, if_false]
      by_cases hcond :
          ((specs &&& SPECS_PLATFORM_QQ != 0) && ob12AccHasReply up acc && isImageModel seg) = true
      · rw [if_pos hcond]
        cases hc : ob12Convert up seg
        · simpa using ob12Flush_all ob12CallNoReplyThenImage acc
            (by simpa [ob12CallNoReplyThenImage] using hn)
        · simp only [List.all_append, Bool.and_eq_true]
          refine ⟨ob12Flush_all _ _ (by simpa [ob12CallNoReplyThenImage] using hn), ?_⟩
          exact ih ([] ++ [seg]) (by simpa using nrti_singleton seg)
      · rw [if_neg hcond]
        cases hc : ob12Convert up seg
        · simp
        · have hnx : noReplyThenImage (acc ++ [seg]) = true := by
            cases himg : isImageModel seg
            · exact nrti_append_nonImage acc seg hn himg
            · have hrep : ob12AccHasReply up acc = false := by
                rcases Bool.eq_false_or_eq_true (ob12AccHasReply up acc) with hr | hr
                · exact absurd (by simp [hq, hr, himg]) hcond
                · exact hr
              exact nrti_append_of_noReply acc seg (ob12AccHasReply_false up acc hrep)
          simpa using ih (acc ++ [seg]) hnx
    · simp only [hm, if_true]
      cases hd : ob12Dedicated up seg
      · exact ob12Flush_all _ _ (by simpa [ob12CallNoReplyThenImage] using hn)
      · rename_i c
        simp only [List.all_append, List.all_cons, Bool.and_eq_true]
        refine ⟨ob12Flush_all _ _ (by simpa [ob12CallNoReplyThenImage] using hn), ?_,
          ih [] (by simp [noReplyThenImage])⟩
        cases c with
        | message elems => exact absurd hd (ob12Dedicated_no_message up seg elems)
        | _ => rfl

/-!
## Helper lemmas: QG partitioning
-/

lemma qgElemImageSeg (m : Model) :
    qgSegIsImage (qgConvert m) = isImageModel m := by
  cases m
  case Image img nm => cases img <;> rfl
  case Raw r => simp only [qgConvert]; split <;> rfl
  all_goals rfl

lemma qgElemReference (m : Model) :
    qgSegIsReference (qgConvert m) = isReplyModel m := by
  cases m
  case Image img nm => cases img <;> rfl
  case Raw r => simp only [qgConvert]; split <;> rfl
  all_goals rfl

lemma qgAccHasImageSeg_eq (acc : List Model) :
    qgAccHasImageSeg acc = acc.any isImageModel := by
  induction acc with
  | nil => rfl
  | cons m l ih =>
    simp only [qgAccHasImageSeg, List.any_cons] at *
    rw [ih]
    congr 1
    exact qgElemImageSeg m

lemma qgAccHasReference_eq (acc : List Model) :
    qgAccHasReference acc = acc.any isReplyModel := by
  induction acc with
  | nil => rfl
  | cons m l ih =>
    simp only [qgAccHasReference, List.any_cons] at *
    rw [ih]
    congr 1
    exact qgElemReference m

lemma qgFlush_all (P : QGCall → Bool) (acc : List Model)
    (h : P (.message acc) = true) : ((qgFlush acc).all P) = true := by
  unfold qgFlush
  split <;> simp [h]

lemma countP_append_nonp (l : List Model) (x : Model) (p : Model → Bool)
    (hx : p x = false) (h : l.countP p ≤ 1) : ((l ++ [x]).countP p) ≤ 1 := by
  simp [List.countP_append, List.countP_cons, hx]
  exact h

lemma countP_append_zero (l : List Model) (x : Model) (p : Model → Bool)
    (hl : (l.any p) = false) : ((l ++ [x]).countP p) ≤ 1 := by
  have h0 : l.countP p = 0 := by
    rw [List.countP_eq_zero]
    intro a ha
    intro hpa
    exact absurd (List.any_eq_true.mpr ⟨a, ha, hpa⟩) (by simp [hl])
  simp [List.countP_append, List.countP_cons, h0]
  split <;> simp

lemma qgCapMsg (acc : List Model) (hr : acc.countP isReplyModel ≤ 1)
    (hi : acc.countP isImageModel ≤ 1) : qgCallCapOK (.message acc) = true := by
  simp only [qgCallCapOK, Bool.and_eq_true, decide_eq_true_eq]
  exact ⟨hr, hi⟩

lemma qgStep_append_facts (acc : List Model) (seg : Model)
    (h : qgStep acc seg = .append) :
    (isImageModel seg && qgAccHasImageSeg acc) = false
    ∧ (isReplyModel seg && qgAccHasReference acc) = false := by
  by_cases h1 : (isImageModel seg && qgAccHasImageSeg acc) = true
  · simp [qgStep, h1] at h
  · by_cases h2 : (isReplyModel seg && qgAccHasReference acc) = true
    · simp [qgStep, h1, h2] at h
    · exact ⟨by simpa using h1, by simpa using h2⟩

lemma qgLoop_cap : ∀ (segs acc : List Model),
    acc.countP isReplyModel ≤ 1 → acc.countP isImageModel ≤ 1 →
    ((qgLoop segs acc).1.all qgCallCapOK) = true := by
  intro segs
  induction segs with
  | nil =>
    intro acc hr hi
    simp only [qgLoop]
    exact qgFlush_all _ _ (qgCapMsg acc hr hi)
  | cons seg rest ih =>
    intro acc hr hi
    simp only [qgLoop]
    cases hs : qgStep acc seg
    case flushDrop =>
      simp only [List.all_append, Bool.and_eq_true]
      exact ⟨qgFlush_all _ _ (qgCapMsg acc hr hi), ih [] (by simp) (by simp)⟩
    case flushRaw r =>
      simp only [List.all_append, List.all_cons, Bool.and_eq_true]
      exact ⟨qgFlush_all _ _ (qgCapMsg acc hr hi), rfl, ih [] (by simp) (by simp)⟩
    case err e => simp
    case append =>
      obtain ⟨h1, h2⟩ := qgStep_append_facts acc seg hs
      refine ih (acc ++ [seg]) ?_ ?_
      · cases hrp : isReplyModel seg
        · exact countP_append_nonp acc seg isReplyModel hrp hr
        · have href : qgAccHasReference acc = false := by
            rcases Bool.eq_false_or_eq_true (qgAccHasReference acc) with h | h
            · exfalso
              rw [hrp, h] at h2
              simp at h2
            · exact h
          rw [qgAccHasReference_eq] at href
          exact countP_append_zero acc seg isReplyModel href
      · cases hip : isImageModel seg
        · exact countP_append_nonp acc seg isImageModel hip hi
        · have himg : qgAccHasImageSeg acc = false := by
            rcases Bool.eq_false_or_eq_true (qgAccHasImageSeg acc) with h | h
            · exfalso
              rw [hip, h] at h1
              simp at h1
            · exact h
          rw [qgAccHasImageSeg_eq] at himg
          exact countP_append_zero acc seg isImageModel himg

/-- Claim C2 counterexample: with the platform-QQ flag set, the OB11
proxy puts two Reply elements (the same Single kind) into one
outbound call, and puts an Image arriving after a Reply-free
accumulator together with a later Reply into one call — so neither
the one-per-kind cap nor the flag-guarded Reply/Image exclusion holds
as stated. -/
theorem claim_c2_counterexample :
    ob11Send SPECS_PLATFORM_QQ ⟨10, none⟩ false [.Reply "1", .Reply "2"]
      = ([.message [.Reply "1", .Reply "2"]], none)
    ∧ List.countP isReplyModel [Model.Reply "1", Model.Reply "2"] = 2
    ∧ ob11Send SPECS_PLATFORM_QQ ⟨10, none⟩ false
        [.Image (.fstr "http://x/p.png") "p.png", .Reply "5"]
      = ([.message [.Image (.fstr "http://x/p.png") "p.png", .Reply "5"]], none) := by
  refine ⟨by decide, rfl, by decide⟩

/-- Claim C2 (amended): the caps the proxies actually enforce are:
OB11/OB12 with the platform-QQ flag set never append an Image to an
accumulator already holding a Reply, so within every combined call no
Reply precedes an Image (multiple Replies may still share a call, and
a Reply may follow an Image into the same call); the QQ-guild proxy
caps every combined call at one Reply and one Image. -/
theorem claim_c2_amended :
    (∀ (specs : Nat) (ev : OB11Event) (segs : List Model),
      (specs &&& SPECS_PLATFORM_QQ != 0) = true →
      ((ob11Send specs ev false segs).1.all ob11CallNoReplyThenImage) = true)
    ∧ (∀ (specs : Nat) (up : UploadOracle) (segs : List Model),
      (specs &&& SPECS_PLATFORM_QQ != 0) = true →
      ((ob12Send specs up false segs).1.all ob12CallNoReplyThenImage) = true)
    ∧ (∀ segs : List Model, ((qgSend false segs).1.all qgCallCapOK) = true) := by
  refine ⟨fun specs ev segs hq => ?_, fun specs up segs hq => ?_, fun segs => ?_⟩
  · simp only [ob11Send, Bool.false_eq_true, if_false]
    exact ob11Loop_nrti specs ev hq segs [] (by simp) (by simp [noReplyThenImage])
  · simp only [ob12Send, Bool.false_eq_true, if_false]
    exact ob12Loop_nrti specs up hq segs [] (by simp [noReplyThenImage])
  · simp only [qgSend, Bool.false_eq_true, if_false]
    exact qgLoop_cap segs [] (by simp) (by simp)

/-- Witness for the hypothesised parts of the amended C2 at concrete
inputs. -/
theorem claim_c2_amended_witness :
    ((ob11Send 1 ⟨0, none⟩ false
        [.Text "hi", .Reply "100", .Image (.fstr "p.png") "p.png"]).1.all
      ob11CallNoReplyThenImage) = true
    ∧ ((ob12Send 1 (fun _ => .ok "fid") false
        [.Reply "9", .Image (.fstr "q.png") "q.png"]).1.all
      ob12CallNoReplyThenImage) = true :=
  ⟨claim_c2_amended.1 1 ⟨0, none⟩ _ (by decide),
   claim_c2_amended.2.1 1 (fun _ => .ok "fid") _ (by decide)⟩

/-- Claim C7: `find_proxy` returns the first registered proxy class
(in registration order) whose declared platform prefix is a prefix of
the bot's module path, and the generic `BaseProxy` when no registered
prefix matches. -/
theorem claim_c7_find_proxy :
    (∀ (reg : List ProxyCls) (bmod : String),
      (reg.all fun p => !(pyStartsWith bmod p.pfx)) = true →
      find_proxy reg bmod = baseProxyCls)
    ∧ (∀ (reg : List ProxyCls) (bmod : String) (i : Nat) (hi : i < reg.length),
      (pyStartsWith bmod (reg.get ⟨i, hi⟩).pfx) = true →
      ((reg.take i).all fun p => !(pyStartsWith bmod p.pfx)) = true →
      find_proxy reg bmod = reg.get ⟨i, hi⟩) := by
  constructor
  · intro reg
    induction reg with
    | nil => intro bmod _; rfl
    | cons p rest ih =>
      intro bmod h
      simp only [List.all_cons, Bool.and_eq_true] at h
      unfold find_proxy
      rw [List.find?_cons_of_neg]
      · simpa [find_proxy] using ih bmod h.2
      · simpa using h.1
  · intro reg
    induction reg with
    | nil =>
      intro bmod i hi
      exact absurd hi (by simp)
    | cons p rest ih =>
      intro bmod i hi hm htake
      cases i with
      | zero =>
        unfold find_proxy
        rw [List.find?_cons_of_pos]
        · rfl
        · exact hm
      | succ i' =>
        have hi' : i' < rest.length := by simpa using hi
        simp only [List.take_succ_cons, List.all_cons, Bool.and_eq_true] at htake
        unfold find_proxy
        rw [List.find?_cons_of_neg]
        · simpa [find_proxy] using ih bmod i' hi' hm htake.2
        · simpa using htake.1

/-- Witness for C7: the OB12 bot module resolves to the second
registered proxy, and an unknown adapter module falls back to the
generic base proxy. -/
theorem claim_c7_find_proxy_witness :
    find_proxy registeredProxies "nonebot.adapters.onebot.v12.message"
      = ⟨"OB12Proxy", "nonebot.adapters.onebot.v12"⟩
    ∧ find_proxy registeredProxies "nonebot.adapters.feishu.bot" = baseProxyCls := by
  constructor
  · exact (claim_c7_find_proxy.2 registeredProxies "nonebot.adapters.onebot.v12.message"
      1 (by decide) (by decide) (by decide)).trans (by decide)
  · exact claim_c7_find_proxy.1 registeredProxies "nonebot.adapters.feishu.bot" (by decide)
